import Mathlib

/-!
Verification development for the VoterPulse voter-file CRM.

This file gives a shallow embedding, in Lean, of the data-pipeline core of
the repository: the CSV line parser, the column mapper with its type
coercions, the streaming import loop of the upload route with its
counters and capped error list, the filter/query predicates used by the
paginated voter search and the dynamic-list populate route, the populate
(clear-then-repopulate) operation itself, the batch upsert loop of the
standalone Minnesota import script, and the election-history batch insert.

JavaScript-level behaviour (object field assignment, `String.split`,
`parseInt`, truthiness) is modelled by small explicit functions so that
every definition evaluates on concrete inputs.  The persistent store is
modelled as plain lists of rows carrying exactly the constraints that
`shared/schema.ts` declares (serial primary keys; note that the indexes on
`voters (organization_id, state_voter_id)` and on `election_history` are
declared with `index`, not `uniqueIndex`, and therefore impose no
uniqueness).
-/

namespace VoterFile

/-! ## JavaScript string primitives -/

/-- JS `String.prototype.trim`: drop Unicode whitespace from both ends.
Implemented on the character list: drop leading whitespace, then drop
trailing whitespace via reversal. -/
def jsTrim (s : String) : String :=
  String.mk ((((s.toList.dropWhile Char.isWhitespace).reverse.dropWhile
    Char.isWhitespace).reverse))

/-- JS `value.includes(c)` for a single-character needle. -/
def jsContains (s : String) (c : Char) : Bool :=
  s.toList.contains c

/-- JS `String.prototype.split` with a single-character separator,
on character lists.  `[] ↦ [[]]` so that `"".split(sep)` is `[""]`. -/
def jsSplitChars (sep : Char) : List Char → List (List Char)
  | [] => [[]]
  | c :: rest =>
    if c = sep then
      [] :: jsSplitChars sep rest
    else
      match jsSplitChars sep rest with
      | f :: t => (c :: f) :: t
      | [] => [[c]]

/-- JS `s.split(sep)` for a one-character separator. -/
def jsSplit (s : String) (sep : Char) : List String :=
  (jsSplitChars sep s.toList).map String.mk

/-- JS `String.prototype.padStart(n, c)`. -/
def jsPadStart (s : String) (n : Nat) (c : Char) : String :=
  if n ≤ s.length then s else String.mk (List.replicate (n - s.length) c) ++ s

/-- JS `parseInt(s, 10)`: skip leading whitespace, read an optional sign and
then the longest leading digit run; `none` models `NaN` (no digits). -/
def jsParseInt (s : String) : Option Int :=
  let l := s.toList.dropWhile (fun c => c.isWhitespace)
  let sr : Int × List Char :=
    match l with
    | '-' :: rest => (-1, rest)
    | '+' :: rest => (1, rest)
    | _ => (1, l)
  let ds := sr.2.takeWhile (fun c => c.isDigit)
  if ds.isEmpty then none
  else some (sr.1 * Int.ofNat (ds.foldl (fun acc c => acc * 10 + (c.toNat - 48)) 0))

/-! ## JavaScript plain objects as association lists

`Record<string, V>` values are association lists in entry order; property
assignment overwrites in place, property read takes the (unique) binding. -/

/-- Read a property: `obj[k]`, `none` meaning `undefined`. -/
def objGet {α : Type} (obj : List (String × α)) (k : String) : Option α :=
  (obj.find? (fun p => p.1 == k)).map (fun p => p.2)

/-- Property assignment `obj[k] = v`: overwrite the existing binding in
place, else append a new entry (JS property insertion order). -/
def objSet {α : Type} (obj : List (String × α)) (k : String) (v : α) :
    List (String × α) :=
  if obj.any (fun p => p.1 == k) then
    obj.map (fun p => if p.1 == k then (k, v) else p)
  else
    obj ++ [(k, v)]

/-! ## The CSV line parser

Embeds `parseCSVLine` from the upload route (`server/routes/` import file,
lines 327-352): a character scan with an `inQuotes` flag; a doubled quote
inside quotes emits one literal quote; a comma outside quotes ends the
field; each emitted field is `.trim()`-ed. -/

def parseCSVAux : List Char → String → Bool → List String
  | [], cur, _ => [jsTrim cur]
  | '"' :: '"' :: rest, cur, true => parseCSVAux rest (cur.push '"') true
  | '"' :: rest, cur, true => parseCSVAux rest cur false
  | '"' :: rest, cur, false => parseCSVAux rest cur true
  | c :: rest, cur, inQuotes =>
    if c = ',' && !inQuotes then
      jsTrim cur :: parseCSVAux rest "" false
    else
      parseCSVAux rest (cur.push c) inQuotes

/-- `parseCSVLine(line)` of the upload route. -/
def parseCSVLine (line : String) : List String :=
  parseCSVAux line.toList "" false

/-! ## The column mapper (`mapRowToSchema`, upload route lines 373-402)

A mapped value is a JS value written into the prepared record: a string, a
number, `null`, or a boolean. -/

inductive MappedValue where
  | str : String → MappedValue
  | num : Int → MappedValue
  | null : MappedValue
  | boolean : Bool → MappedValue
deriving DecidableEq, Repr

/-- A parsed CSV row object: header name to cell text. -/
abbrev Row := List (String × String)

/-- A mapped row object: target field to coerced value. -/
abbrev MappedRow := List (String × MappedValue)

/-- `parseInt(value, 10) || null`: `null` when `parseInt` gives `NaN` and
also when it gives the falsy number `0`. -/
def jsParseIntOrNull (s : String) : MappedValue :=
  match jsParseInt s with
  | some n => if n = 0 then .null else .num n
  | none => .null

/-- The date branch of `mapRowToSchema`: a value containing `/` with exactly
three segments is rewritten to `parts[2]-parts[0]-parts[1]` with the first
two zero-padded to width 2; otherwise a value containing a space is
truncated to its first space-separated token; any other value is returned
unchanged. -/
def mapDateValue (value : String) : String :=
  if jsContains value '/' then
    match jsSplit value '/' with
    | [m, d, y] => y ++ "-" ++ jsPadStart m 2 '0' ++ "-" ++ jsPadStart d 2 '0'
    | _ => value
  else if jsContains value ' ' then
    (jsSplit value ' ').headD ""
  else
    value

/-- Per-target-field type coercion of `mapRowToSchema`. -/
def convertValue (targetCol : String) (v : String) : MappedValue :=
  if targetCol = "dobYear" then jsParseIntOrNull v
  else if targetCol = "permanentAbsentee" then
    .boolean (v == "Y" || v == "true" || v == "1")
  else if targetCol = "registrationDate" || targetCol = "electionDate" then
    .str (mapDateValue v)
  else
    .str v

/-- `mapRowToSchema(row, columnMapping, type)`: walk the explicit column
mapping in entry order; a source cell that is `undefined` or the empty
string contributes nothing; otherwise the coerced value is assigned to the
target field.  Returns `none` (JS `null`) when no field was assigned.
The `type` argument is unused by the source body and kept for fidelity. -/
def mapRowToSchema (row : Row) (columnMapping : List (String × String))
    (importType : String) : Option MappedRow :=
  let mapped := columnMapping.foldl
    (fun mapped entry =>
      match objGet row entry.1 with
      | some v => if v = "" then mapped else objSet mapped entry.2 (convertValue entry.2 v)
      | none => mapped)
    []
  if mapped.isEmpty then none else some mapped

/-! ## The streaming import loop of the upload route (lines 150-312)

The loop state carries the header row, the pending batch, the four
counters and the error-descriptor list.  The batch write is a call on the
external store; in this model it succeeds, matching a healthy database
(the `catch` branch around it is environmental).  The row mapper is a
parameter of type `Row → Except String (Option MappedRow)` mirroring the
`try`/`catch` around `mapRowToSchema` in the source; the actual route
instantiates it with `routeMapper`, which never throws. -/

structure ImportError where
  row : Nat
  message : String
deriving DecidableEq, Repr

structure LoopState where
  headers : List String := []
  batch : List MappedRow := []
  processedRows : Nat := 0
  successRows : Nat := 0
  errorRows : Nat := 0
  errors : List ImportError := []
deriving DecidableEq, Repr

/-- The final persisted import-job record. -/
structure JobResult where
  status : String
  totalRows : Nat
  processedRows : Nat
  successRows : Nat
  errorRows : Nat
  errors : List ImportError
deriving DecidableEq, Repr

/-- `headers.reduce((acc, header, i) => { acc[header] = values[i] || ''; ... })`. -/
def buildRow (headers values : List String) : Row :=
  headers.enum.foldl (fun acc p => objSet acc p.2 (values.getD p.1 "")) []

/-- One complete line of the `file.on('data')` handler: skip blank lines,
capture the header row, otherwise parse, build the row object, map it
(catching a mapper throw into the error counters, with the descriptor list
capped at 100), count the row, and flush the batch once it reaches 1000
rows (the flush counts the whole batch as successful). -/
def processLine (mapper : Row → Except String (Option MappedRow))
    (st : LoopState) (line : String) : LoopState :=
  if jsTrim line = "" then st
  else if st.headers.isEmpty then { st with headers := parseCSVLine line }
  else
    let values := parseCSVLine line
    let row := buildRow st.headers values
    let st1 :=
      match mapper row with
      | .ok (some m) => { st with batch := st.batch ++ [m] }
      | .ok none => st
      | .error msg =>
        { st with
          errorRows := st.errorRows + 1,
          errors :=
            if st.errors.length < 100 then
              st.errors ++ [ImportError.mk (st.processedRows + 1) msg]
            else st.errors }
    let st2 := { st1 with processedRows := st1.processedRows + 1 }
    if 1000 ≤ st2.batch.length then
      { st2 with successRows := st2.successRows + st2.batch.length, batch := [] }
    else st2

/-- The whole upload stream: fold the data handler over the logical lines
of a newline-terminated file, insert the final partial batch, and persist
the completed job; the source writes `totalRows: processedRows` in the
final update. -/
def runImport (mapper : Row → Except String (Option MappedRow))
    (lines : List String) : JobResult :=
  let st := lines.foldl (processLine mapper) {}
  let st :=
    if 0 < st.batch.length then
      { st with successRows := st.successRows + st.batch.length, batch := [] }
    else st
  { status := "completed"
    totalRows := st.processedRows
    processedRows := st.processedRows
    successRows := st.successRows
    errorRows := st.errorRows
    errors := st.errors }

/-- The mapper the upload route actually uses: `mapRowToSchema`, which
never throws. -/
def routeMapper (columnMapping : List (String × String)) (importType : String) :
    Row → Except String (Option MappedRow) :=
  fun row => .ok (mapRowToSchema row columnMapping importType)

/-- A mapper whose rows all fail, modelling a `mapRowToSchema` throw for
every data row (the `catch` branch of the data handler). -/
def failingMapper (msg : String) : Row → Except String (Option MappedRow) :=
  fun _ => .error msg

/-! ## Voter rows (the `voters` table of `shared/schema.ts`)

Only the columns the pipeline predicates and the claims touch are carried;
the remaining columns are inert payload.  All of them are nullable in the
schema except `organizationId`; `id` is the serial primary key. -/

structure VoterData where
  organizationId : Nat
  stateVoterId : String
  firstName : Option String := none
  lastName : Option String := none
  streetName : Option String := none
  phone : Option String := none
  email : Option String := none
  congressionalDistrict : Option String := none
  legislativeDistrict : Option String := none
  stateSenateDistrict : Option String := none
  countyCode : Option String := none
  city : Option String := none
  zipCode : Option String := none
  precinctCode : Option String := none
  supportLevel : Option Int := none
deriving DecidableEq, Repr

structure VoterRow extends VoterData where
  id : Nat
deriving DecidableEq, Repr

/-- Helper for building test voters. -/
def mkVoterData (org : Nat) (sid : String) : VoterData :=
  { organizationId := org, stateVoterId := sid }

/-! ## Filter criteria and the store predicates -/

/-- `ListFilterCriteria` of `shared/schema.ts`. -/
structure ListFilterCriteria where
  congressionalDistrict : Option (List String) := none
  legislativeDistrict : Option (List String) := none
  stateSenateDistrict : Option (List String) := none
  county : Option (List String) := none
  city : Option (List String) := none
  zipCode : Option (List String) := none
  supportLevel : Option (List Int) := none
  hasPhone : Bool := false
  hasEmail : Bool := false
deriving DecidableEq, Repr

/-- JS `criteria.field?.length` truthiness: present and non-empty. -/
def condActive {α : Type} : Option (List α) → Bool
  | some l => !l.isEmpty
  | none => false

/-- SQL `col IN (list)` on a nullable column: `NULL` never matches. -/
def sqlInArray {α : Type} [BEq α] (v : Option α) (l : List α) : Bool :=
  match v with
  | some x => l.contains x
  | none => false

/-- SQL `col IS NOT NULL AND col != ''`. -/
def nonEmptyText (v : Option String) : Bool :=
  match v with
  | some s => !(s == "")
  | none => false

/-- The populate route's condition builder (`lists` route, lines 296-325):
the tenant conjunct first, then one `inArray` conjunct per populated
list-valued criteria field, then the has-phone/has-email conjuncts. -/
def voterMatches (orgId : Nat) (cr : ListFilterCriteria) (v : VoterRow) : Bool :=
  (v.organizationId == orgId)
  && (if condActive cr.congressionalDistrict then
        sqlInArray v.congressionalDistrict (cr.congressionalDistrict.getD []) else true)
  && (if condActive cr.legislativeDistrict then
        sqlInArray v.legislativeDistrict (cr.legislativeDistrict.getD []) else true)
  && (if condActive cr.stateSenateDistrict then
        sqlInArray v.stateSenateDistrict (cr.stateSenateDistrict.getD []) else true)
  && (if condActive cr.county then
        sqlInArray v.countyCode (cr.county.getD []) else true)
  && (if condActive cr.city then
        sqlInArray v.city (cr.city.getD []) else true)
  && (if condActive cr.zipCode then
        sqlInArray v.zipCode (cr.zipCode.getD []) else true)
  && (if condActive cr.supportLevel then
        sqlInArray v.supportLevel (cr.supportLevel.getD []) else true)
  && (if cr.hasPhone then nonEmptyText v.phone else true)
  && (if cr.hasEmail then nonEmptyText v.email else true)

/-- Query parameters of the paginated voter search (`voters` route). -/
structure VoterSearchFilters where
  search : Option String := none
  congressionalDistrict : Option String := none
  legislativeDistrict : Option String := none
  stateSenateDistrict : Option String := none
  county : Option String := none
  city : Option String := none
  zipCode : Option String := none
  precinctCode : Option String := none
  supportLevel : Option String := none
  hasPhone : Option String := none
  hasEmail : Option String := none
deriving DecidableEq, Repr

/-- JS truthiness of an optional query-parameter string. -/
def isTruthyParam : Option String → Bool
  | some s => !(s == "")
  | none => false

def listIsPrefixOf : List Char → List Char → Bool
  | [], _ => true
  | _ :: _, [] => false
  | a :: as, b :: bs => a == b && listIsPrefixOf as bs

def listIsInfixOf (needle : List Char) : List Char → Bool
  | [] => needle.isEmpty
  | c :: t => listIsPrefixOf needle (c :: t) || listIsInfixOf needle t

/-- SQL `col ILIKE '%term%'` on a nullable column: case-insensitive
substring; `NULL` never matches. -/
def ilikeContains (term : String) (col : Option String) : Bool :=
  match col with
  | some v => listIsInfixOf term.toLower.toList v.toLower.toList
  | none => false

/-- SQL `col ILIKE pat` with no wildcard in `pat`: case-insensitive
equality; `NULL` never matches. -/
def ilikeEq (pat : String) (col : Option String) : Bool :=
  match col with
  | some v => v.toLower == pat.toLower
  | none => false

/-- SQL `col = text` on a nullable column. -/
def sqlEqText (x : String) (col : Option String) : Bool :=
  match col with
  | some v => v == x
  | none => false

/-- The voter-search condition builder (`voters` route, lines 36-89): the
tenant conjunct first, then one conjunct per supplied query parameter.
The optional list-membership join does not alter this per-voter predicate
and is not modelled. -/
def searchMatches (orgId : Nat) (f : VoterSearchFilters) (v : VoterRow) : Bool :=
  (v.organizationId == orgId)
  && (if isTruthyParam f.search then
        (ilikeContains (f.search.getD "") v.firstName
          || ilikeContains (f.search.getD "") v.lastName
          || ilikeContains (f.search.getD "") v.phone
          || ilikeContains (f.search.getD "") v.streetName
          || ilikeContains (f.search.getD "") v.city)
      else true)
  && (if isTruthyParam f.congressionalDistrict then
        sqlEqText (f.congressionalDistrict.getD "") v.congressionalDistrict else true)
  && (if isTruthyParam f.legislativeDistrict then
        sqlEqText (f.legislativeDistrict.getD "") v.legislativeDistrict else true)
  && (if isTruthyParam f.stateSenateDistrict then
        sqlEqText (f.stateSenateDistrict.getD "") v.stateSenateDistrict else true)
  && (if isTruthyParam f.county then
        sqlEqText (f.county.getD "") v.countyCode else true)
  && (if isTruthyParam f.city then
        ilikeEq (f.city.getD "") v.city else true)
  && (if isTruthyParam f.zipCode then
        sqlEqText (f.zipCode.getD "") v.zipCode else true)
  && (if isTruthyParam f.precinctCode then
        sqlEqText (f.precinctCode.getD "") v.precinctCode else true)
  && (if isTruthyParam f.supportLevel then
        (match jsParseInt (f.supportLevel.getD "") with
         | some n => sqlInArray v.supportLevel [n]
         | none => false)
      else true)
  && (if f.hasPhone == some "true" then nonEmptyText v.phone else true)
  && (if f.hasEmail == some "true" then nonEmptyText v.email else true)

/-! ## Lists, membership and the populate operation (`lists` route) -/

/-- A `voter_lists` row (the columns the populate path reads/writes). -/
structure VoterList where
  id : Nat
  organizationId : Nat
  filterCriteria : Option ListFilterCriteria
deriving DecidableEq, Repr

/-- A `voter_list_members` row. -/
structure ListMember where
  listId : Nat
  voterId : Nat
  addedBy : Nat
deriving DecidableEq, Repr

/-- The slice of the store the list pipeline touches. -/
structure Store where
  voters : List VoterRow
  lists : List VoterList
  members : List ListMember
deriving DecidableEq, Repr

/-- Fuel-indexed slicing used to mirror the `for (i = 0; i < n; i += 1000)`
batching loop; the fuel (initially the list length) only guarantees
termination. -/
def chunksAux {α : Type} (n : Nat) : Nat → List α → List (List α)
  | 0, _ => []
  | _, [] => []
  | fuel + 1, l => l.take n :: chunksAux n fuel (l.drop n)

def chunksOf {α : Type} (n : Nat) (l : List α) : List (List α) :=
  chunksAux n l.length l

/-- The membership view of a list. -/
def listMembership (st : Store) (listId : Nat) : List Nat :=
  (st.members.filter (fun m => m.listId == listId)).map (fun m => m.voterId)

/-- `POST /:id/populate` (`lists` route, lines 274-365): look up the list
under the tenant, resolve the effective criteria (explicit override or the
stored criteria, else a validation error), evaluate the predicate over the
tenant's voters, delete every membership row of the list, insert the full
match set in slices of 1000 counting `added`, and persist the criteria on
the list.  Returns the updated store and the `added` count. -/
def populateList (st : Store) (orgId userId listId : Nat)
    (criteriaOverride : Option ListFilterCriteria) :
    Except String (Store × Nat) :=
  match st.lists.find? (fun l => l.id == listId && l.organizationId == orgId) with
  | none => Except.error "List not found"
  | some list =>
    match criteriaOverride.orElse (fun _ => list.filterCriteria) with
    | none => Except.error "No filter criteria provided"
    | some criteria =>
      let matchingIds := (st.voters.filter (fun v => voterMatches orgId criteria v)).map (fun v => v.id)
      let cleared := st.members.filter (fun m => !(m.listId == listId))
      let inserted := (chunksOf 1000 matchingIds).foldl
        (fun acc chunk =>
          (acc.1 ++ chunk.map (fun vid => ListMember.mk listId vid userId),
           acc.2 + chunk.length))
        (cleared, 0)
      let lists := st.lists.map
        (fun l => if l.id == listId then { l with filterCriteria := some criteria } else l)
      Except.ok ({ st with members := inserted.1, lists := lists }, inserted.2)

/-- Demonstration fixtures for the populate pipeline: two voters of tenant
1 in cities A and B, one list (id 5), and one manually-added membership
row pointing at a voter id outside the store. -/
def populateDemoStore : Store :=
  { voters :=
      [{ toVoterData := { mkVoterData 1 "A1" with city := some "A" }, id := 1 },
       { toVoterData := { mkVoterData 1 "B1" with city := some "B" }, id := 2 }],
    lists := [{ id := 5, organizationId := 1, filterCriteria := none }],
    members := [{ listId := 5, voterId := 99, addedBy := 0 }] }

/-- Criteria selecting a set of cities. -/
def cityCriteria (cs : List String) : ListFilterCriteria :=
  { city := some cs }

/-- The demo store after populating list 5 with city A. -/
def populateDemoStore1 : Store :=
  { voters := populateDemoStore.voters,
    lists := [{ id := 5, organizationId := 1, filterCriteria := some (cityCriteria ["A"]) }],
    members := [{ listId := 5, voterId := 1, addedBy := 9 }] }

/-- The demo store after then populating list 5 with city B. -/
def populateDemoStore2 : Store :=
  { voters := populateDemoStore.voters,
    lists := [{ id := 5, organizationId := 1, filterCriteria := some (cityCriteria ["B"]) }],
    members := [{ listId := 5, voterId := 2, addedBy := 9 }] }

/-! ## The upload route's batch writers (`insertVoterBatch`,
`insertElectionBatch`, lines 404-448) -/

/-- The upsert conflict key of `insertVoterBatch`:
`target: [voters.organizationId, voters.stateVoterId]` — a voter row
conflicts with an incoming record only when both the tenant and the
external identifier agree. -/
def voterUpsertConflictKey (orgId : Nat) (sid : String) (v : VoterRow) : Bool :=
  v.organizationId == orgId && v.stateVoterId == sid

/-- An election-history record as mapped from a source row. -/
structure ElectionData where
  stateVoterId : String
  electionDate : String
  electionDescription : Option String := none
  electionType : Option String := none
  votingMethod : Option String := none
deriving DecidableEq, Repr

/-- An `election_history` table row.  Per `shared/schema.ts` the table has
a serial primary key and only NON-unique indexes (`election_voter_idx`,
`election_org_idx`, `election_date_idx`, `election_type_idx`); in
particular there is no unique constraint on `(voter_id, election_date)`. -/
structure ElectionRow where
  id : Nat
  voterId : Nat
  organizationId : Nat
  electionDate : String
  electionDescription : Option String
  electionType : Option String
  votingMethod : Option String
deriving DecidableEq, Repr

/-- The parent lookup of `insertElectionBatch` (upload route, lines
428-434): tenant-scoped, keyed by `(organizationId, stateVoterId)`. -/
def electionParentMatches (orgId : Nat) (sid : String) (v : VoterRow) : Bool :=
  v.organizationId == orgId && v.stateVoterId == sid

/-- One record of `insertElectionBatch`: when the record carries a truthy
external identifier and the tenant-scoped parent lookup finds a voter,
insert the history row.  The source ends the insert with
`.onConflictDoNothing()`, but `shared/schema.ts` declares no unique
constraint this insert could conflict with (the election-history indexes
are all plain `index`es and the serial primary key is fresh), so in
PostgreSQL the insert always lands: the model therefore always appends. -/
def insertElectionRecord (est : List ElectionRow × Nat) (voters : List VoterRow)
    (orgId : Nat) (rec : ElectionData) : List ElectionRow × Nat :=
  if rec.stateVoterId = "" then est
  else
    match voters.find? (fun v => electionParentMatches orgId rec.stateVoterId v) with
    | some parent =>
      (est.1 ++ [⟨est.2, parent.id, orgId, rec.electionDate,
                 rec.electionDescription, rec.electionType, rec.votingMethod⟩],
       est.2 + 1)
    | none => est

/-- `insertElectionBatch(batch, organizationId)`: the per-record loop. -/
def insertElectionBatch (elections : List ElectionRow) (nextId : Nat)
    (voters : List VoterRow) (orgId : Nat) (batch : List ElectionData) :
    List ElectionRow × Nat :=
  batch.foldl (fun est rec => insertElectionRecord est voters orgId rec)
    (elections, nextId)

/-! ## The standalone Minnesota import script (`scripts/import-voters.ts`)

`processBatch` looks each incoming voter up by `stateVoterId` ALONE —
`eq(schema.voters.stateVoterId, voter.stateVoterId)` with no
`organizationId` conjunct — then updates the found row (overwriting all of
the record's fields, `organizationId` included) or inserts a fresh row,
incrementing `updated` respectively `imported`.  Rows whose external
identifier is empty are counted as `skipped` before batching.  Batches are
slices of 1000 whose records are processed one at a time in file order, so
the composite effect is the sequential fold below. -/

/-- The script's voter-existence lookup predicate: external identifier
only, no tenant conjunct. -/
def scriptVoterLookup (sid : String) (v : VoterRow) : Bool :=
  v.stateVoterId == sid

structure ScriptState where
  store : List VoterRow
  nextId : Nat
  imported : Nat := 0
  updated : Nat := 0
  skipped : Nat := 0
deriving DecidableEq, Repr

/-- The insert-or-update step of `processBatch` for one voter record. -/
def scriptUpsert (st : ScriptState) (voter : VoterData) : ScriptState :=
  match st.store.find? (fun r => scriptVoterLookup voter.stateVoterId r) with
  | some existing =>
    { st with
      store := st.store.map
        (fun r => if r.id == existing.id then { toVoterData := voter, id := existing.id } else r),
      updated := st.updated + 1 }
  | none =>
    { st with
      store := st.store ++ [{ toVoterData := voter, id := st.nextId }],
      nextId := st.nextId + 1,
      imported := st.imported + 1 }

/-- One source row: skip when the external identifier is falsy, else
upsert. -/
def scriptRow (st : ScriptState) (voter : VoterData) : ScriptState :=
  if voter.stateVoterId = "" then { st with skipped := st.skipped + 1 }
  else scriptUpsert st voter

/-- The whole voter side of one `importDistrict` run over the mapped
records of a file. -/
def runScriptImport (st : ScriptState) (rows : List VoterData) : ScriptState :=
  rows.foldl scriptRow st

/-- One fresh run of the script importer over a file's mapped rows,
starting from a given store and next serial id, with zeroed counters (each
`importDistrict` run starts its own `stats`). -/
def scriptFirstRun (store : List VoterRow) (nextId : Nat) (rows : List VoterData) :
    ScriptState :=
  runScriptImport { store := store, nextId := nextId } rows

/-- A re-run of the same file against the store the first run produced,
again with zeroed counters. -/
def scriptSecondRun (store : List VoterRow) (nextId : Nat) (rows : List VoterData) :
    ScriptState :=
  runScriptImport
    { store := (scriptFirstRun store nextId rows).store,
      nextId := (scriptFirstRun store nextId rows).nextId } rows

/-! ## Supporting lemmas: strings and the CSV parser -/

theorem pushData (s : String) (c : Char) : (s.push c).data = s.data ++ [c] := by
  cases s
  rfl

theorem mkData (l : List Char) : (String.mk l).data = l := rfl

theorem stringNeEmpty (l : List Char) (h : l ≠ []) : String.mk l ≠ "" := by
  intro hc
  exact h (congrArg String.data hc)

/-- Opening quote outside quotes: toggle into quoted mode. -/
theorem parseCSVAux_open_quote (rest : List Char) (cur : String) :
    parseCSVAux ('"' :: rest) cur false = parseCSVAux rest cur true := by
  rw [parseCSVAux.eq_def]
  split <;> try simp_all
  rename_i heq hne
  exact absurd heq.1.symm hne

/-- A non-quote character while inside quotes is absorbed into the current
field, commas included. -/
theorem parseCSVAux_quoted_step (c : Char) (rest : List Char) (cur : String)
    (hc : c ≠ '"') :
    parseCSVAux (c :: rest) cur true = parseCSVAux rest (cur.push c) true := by
  rw [parseCSVAux.eq_def]
  split <;> simp_all

/-- The parser always returns at least one field. -/
theorem parseCSVAux_pos : ∀ (n : Nat) (l : List Char) (cur : String) (q : Bool),
    l.length ≤ n → 1 ≤ (parseCSVAux l cur q).length := by
  intro n
  induction n with
  | zero =>
    intro l cur q h
    have hl : l = [] := by
      cases l with
      | nil => rfl
      | cons a t => simp at h
    subst hl
    simp [parseCSVAux]
  | succ n ih =>
    intro l cur q h
    rw [parseCSVAux.eq_def]
    split
    · simp
    · apply ih
      simp_all
      omega
    · apply ih
      simp_all
    · apply ih
      simp_all
    · split
      · simp
      · apply ih
        simp_all

/-- Every field the parser emits is a `jsTrim` image. -/
theorem parseCSVAux_mem_trim : ∀ (n : Nat) (l : List Char) (cur : String) (q : Bool),
    l.length ≤ n → ∀ x ∈ parseCSVAux l cur q, ∃ u, x = jsTrim u := by
  intro n
  induction n with
  | zero =>
    intro l cur q h
    have hl : l = [] := by
      cases l with
      | nil => rfl
      | cons a t => simp at h
    subst hl
    simp [parseCSVAux]
  | succ n ih =>
    intro l cur q h
    rw [parseCSVAux.eq_def]
    split
    · simp
    · apply ih
      simp_all
      omega
    · apply ih
      simp_all
    · apply ih
      simp_all
    · split
      · intro x hx
        rcases List.mem_cons.mp hx with h1 | h2
        · exact ⟨_, h1⟩
        · exact ih _ _ _ (by simp_all) x h2
      · apply ih
        simp_all

/-- In quoted mode, a quote-free remainder is absorbed wholesale: the
buffered field is flushed at end of line. -/
theorem parseCSVAux_no_quote_true : ∀ (l : List Char) (cur : String),
    (∀ c ∈ l, c ≠ '"') →
    parseCSVAux l cur true = [jsTrim (String.mk (cur.data ++ l))] := by
  intro l
  induction l with
  | nil =>
    intro cur _
    simp [parseCSVAux]
  | cons c rest ih =>
    intro cur hq
    rw [parseCSVAux_quoted_step c rest cur (hq c (by simp))]
    rw [ih (cur.push c) (fun d hd => hq d (by simp [hd]))]
    simp [pushData]

/-! ## Supporting lemmas: the import loop counters -/

theorem processLine_le (mapper : Row → Except String (Option MappedRow))
    (st : LoopState) (line : String)
    (h : st.successRows + st.errorRows + st.batch.length ≤ st.processedRows) :
    (processLine mapper st line).successRows + (processLine mapper st line).errorRows
      + (processLine mapper st line).batch.length
      ≤ (processLine mapper st line).processedRows := by
  simp only [processLine]
  split
  · exact h
  · split
    · simpa using h
    · cases hm : mapper (buildRow st.headers (parseCSVLine line)) with
      | ok o =>
        cases o with
        | some m => dsimp only; split <;> simp_all <;> omega
        | none => dsimp only; split <;> simp_all <;> omega
      | error msg => dsimp only; split <;> simp_all <;> omega

theorem foldl_processLine_le (mapper : Row → Except String (Option MappedRow)) :
    ∀ (lines : List String) (st : LoopState),
    st.successRows + st.errorRows + st.batch.length ≤ st.processedRows →
    (lines.foldl (processLine mapper) st).successRows
      + (lines.foldl (processLine mapper) st).errorRows
      + (lines.foldl (processLine mapper) st).batch.length
      ≤ (lines.foldl (processLine mapper) st).processedRows := by
  intro lines
  induction lines with
  | nil => intro st h; exact h
  | cons line rest ih =>
    intro st h
    exact ih (processLine mapper st line) (processLine_le mapper st line h)

theorem processLine_errlen (mapper : Row → Except String (Option MappedRow))
    (st : LoopState) (line : String)
    (h : st.errors.length = min st.errorRows 100) :
    (processLine mapper st line).errors.length
      = min (processLine mapper st line).errorRows 100 := by
  simp only [processLine]
  split
  · exact h
  · split
    · simpa using h
    · cases hm : mapper (buildRow st.headers (parseCSVLine line)) with
      | ok o =>
        cases o with
        | some m => dsimp only; split <;> simp_all
        | none => dsimp only; split <;> simp_all
      | error msg =>
        dsimp only
        split <;> [skip; skip] <;> split <;> simp_all <;> omega

theorem foldl_processLine_errlen (mapper : Row → Except String (Option MappedRow)) :
    ∀ (lines : List String) (st : LoopState),
    st.errors.length = min st.errorRows 100 →
    (lines.foldl (processLine mapper) st).errors.length
      = min (lines.foldl (processLine mapper) st).errorRows 100 := by
  intro lines
  induction lines with
  | nil => intro st h; exact h
  | cons line rest ih =>
    intro st h
    exact ih (processLine mapper st line) (processLine_errlen mapper st line h)

/-! ## Supporting lemmas: the date coercion -/

theorem jsSplitChars_no_sep (sep : Char) : ∀ (a : List Char), sep ∉ a →
    jsSplitChars sep a = [a] := by
  intro a
  induction a with
  | nil => intro _; rfl
  | cons c rest ih =>
    intro h
    have hc : ¬ c = sep := fun hcc => h (by simp [hcc])
    simp only [jsSplitChars, if_neg hc, ih (fun hm => h (List.mem_cons_of_mem c hm))]

theorem jsSplitChars_append (sep : Char) : ∀ (a b : List Char), sep ∉ a →
    jsSplitChars sep (a ++ sep :: b) = a :: jsSplitChars sep b := by
  intro a
  induction a with
  | nil => intro b _; simp [jsSplitChars]
  | cons c rest ih =>
    intro b h
    have hc : ¬ c = sep := fun hcc => h (by simp [hcc])
    simp only [List.cons_append, jsSplitChars, if_neg hc]
    rw [show rest.append (sep :: b) = rest ++ sep :: b from rfl,
      ih b (fun hm => h (List.mem_cons_of_mem c hm))]

theorem jsSplit_three (m d y : List Char) (hm : '/' ∉ m) (hd : '/' ∉ d) (hy : '/' ∉ y) :
    jsSplit (String.mk (m ++ '/' :: (d ++ '/' :: y))) '/' =
      [String.mk m, String.mk d, String.mk y] := by
  show (jsSplitChars '/' (m ++ '/' :: (d ++ '/' :: y))).map String.mk = _
  rw [jsSplitChars_append '/' m _ hm, jsSplitChars_append '/' d _ hd,
    jsSplitChars_no_sep '/' y hy]
  rfl

theorem mapDateValue_slash (m d y : List Char) (hm : '/' ∉ m) (hd : '/' ∉ d) (hy : '/' ∉ y) :
    mapDateValue (String.mk (m ++ '/' :: (d ++ '/' :: y))) =
      String.mk y ++ "-" ++ jsPadStart (String.mk m) 2 '0' ++ "-"
        ++ jsPadStart (String.mk d) 2 '0' := by
  have hc : jsContains (String.mk (m ++ '/' :: (d ++ '/' :: y))) '/' = true := by
    simp [jsContains]
  simp only [mapDateValue, hc, if_pos, jsSplit_three m d y hm hd hy]

theorem convertValue_regDate (v : String) :
    convertValue "registrationDate" v = .str (mapDateValue v) := by
  simp [convertValue]

theorem mapRowToSchema_single (src tgt v : String) (hv : v ≠ "") (ty : String) :
    mapRowToSchema [(src, v)] [(src, tgt)] ty = some [(tgt, convertValue tgt v)] := by
  simp [mapRowToSchema, objGet, objSet, List.find?, hv]

theorem mapDateValue_id (v : String) (h1 : jsContains v '/' = false)
    (h2 : jsContains v ' ' = false) : mapDateValue v = v := by
  simp [mapDateValue, h1, h2]

/-! ## Supporting lemmas: chunked insertion and the populate operation -/

theorem chunksAux_flatten {α : Type} (n : Nat) (hn : 0 < n) :
    ∀ (fuel : Nat) (l : List α), l.length ≤ fuel → (chunksAux n fuel l).flatten = l := by
  intro fuel
  induction fuel with
  | zero =>
    intro l h
    have hl : l = [] := by cases l <;> simp_all
    subst hl
    rfl
  | succ fuel ih =>
    intro l h
    cases l with
    | nil => rfl
    | cons a t =>
      show ((a :: t).take n :: chunksAux n fuel ((a :: t).drop n)).flatten = a :: t
      rw [List.flatten_cons, ih ((a :: t).drop n)
        (by simp only [List.length_drop, List.length_cons] at h ⊢; omega)]
      exact List.take_append_drop n (a :: t)

theorem insertionFold (listId userId : Nat) :
    ∀ (chunks : List (List Nat)) (ms : List ListMember) (a : Nat),
    chunks.foldl
      (fun acc chunk =>
        (acc.1 ++ chunk.map (fun vid => ListMember.mk listId vid userId),
         acc.2 + chunk.length))
      (ms, a)
    = (ms ++ chunks.flatten.map (fun vid => ListMember.mk listId vid userId),
       a + chunks.flatten.length) := by
  intro chunks
  induction chunks with
  | nil => intro ms a; simp
  | cons c rest ih =>
    intro ms a
    simp only [List.foldl_cons, ih, List.flatten_cons, List.map_append,
      List.append_assoc, List.length_append]
    simp [Nat.add_assoc]

theorem chunkInsert (listId userId : Nat) (ms : List ListMember) (ids : List Nat) :
    (chunksOf 1000 ids).foldl
      (fun acc chunk =>
        (acc.1 ++ chunk.map (fun vid => ListMember.mk listId vid userId),
         acc.2 + chunk.length))
      (ms, 0)
    = (ms ++ ids.map (fun vid => ListMember.mk listId vid userId), ids.length) := by
  rw [insertionFold]
  show (ms ++ (chunksAux 1000 ids.length ids).flatten.map _,
       0 + (chunksAux 1000 ids.length ids).flatten.length) = _
  rw [chunksAux_flatten 1000 (by omega) ids.length ids le_rfl]
  simp

/-- Full characterisation of a successful populate with explicit criteria:
voters untouched, membership replaced by the evaluated match set, the
returned count is the match-set size, the criteria persisted, and the list
row that authorised the operation exists under the tenant. -/
theorem populateList_ok (st : Store) (orgId userId listId : Nat) (c : ListFilterCriteria)
    (st' : Store) (n : Nat)
    (h : populateList st orgId userId listId (some c) = .ok (st', n)) :
    st'.voters = st.voters
    ∧ st'.members = st.members.filter (fun m => !(m.listId == listId))
        ++ ((st.voters.filter (fun v => voterMatches orgId c v)).map (fun v => v.id)).map
             (fun vid => ListMember.mk listId vid userId)
    ∧ n = (st.voters.filter (fun v => voterMatches orgId c v)).length
    ∧ st'.lists = st.lists.map
        (fun l => if l.id == listId then { l with filterCriteria := some c } else l)
    ∧ ∃ l ∈ st.lists, l.id = listId ∧ l.organizationId = orgId := by
  simp only [populateList] at h
  cases hf : st.lists.find? (fun l => l.id == listId && l.organizationId == orgId) with
  | none => rw [hf] at h; exact absurd h (by simp)
  | some list =>
    rw [hf] at h
    simp only [Option.orElse] at h
    rw [chunkInsert] at h
    simp only [Except.ok.injEq, Prod.mk.injEq] at h
    obtain ⟨h1, h2⟩ := h
    subst h2
    rw [← h1]
    have hmem := List.mem_of_find?_eq_some hf
    have hpred := List.find?_some hf
    simp only [Bool.and_eq_true, beq_iff_eq] at hpred
    exact ⟨rfl, rfl, by simp, rfl, list, hmem, hpred.1, hpred.2⟩

/-! ## Supporting lemmas: the standalone script's upsert loop -/

/-- A run over rows whose external identifiers are fresh (pairwise distinct
and absent from the store, across all tenants) inserts everything: each row
is `imported`, none `updated`, and the store grows by one row per record,
with serial ids staying unique. -/
theorem scriptRun_fresh : ∀ (rows : List VoterData) (st : ScriptState),
    (∀ r ∈ rows, r.stateVoterId ≠ "") →
    (rows.map VoterData.stateVoterId).Nodup →
    (∀ v ∈ st.store, ∀ r ∈ rows, v.stateVoterId ≠ r.stateVoterId) →
    (∀ v ∈ st.store, v.id < st.nextId) →
    (st.store.map (fun v => v.id)).Nodup →
    (runScriptImport st rows).imported = st.imported + rows.length
    ∧ (runScriptImport st rows).updated = st.updated
    ∧ (runScriptImport st rows).store.map (fun v => v.stateVoterId)
        = st.store.map (fun v => v.stateVoterId) ++ rows.map VoterData.stateVoterId
    ∧ (runScriptImport st rows).store.length = st.store.length + rows.length
    ∧ (∀ v ∈ (runScriptImport st rows).store, v.id < (runScriptImport st rows).nextId)
    ∧ ((runScriptImport st rows).store.map (fun v => v.id)).Nodup := by
  intro rows
  induction rows with
  | nil =>
    intro st h1 h2 h3 h4 h5
    exact ⟨rfl, rfl, by simp [runScriptImport], by simp [runScriptImport], h4, h5⟩
  | cons r rest ih =>
    intro st h1 h2 h3 h4 h5
    have hrne : r.stateVoterId ≠ "" := h1 r (by simp)
    have hfind : st.store.find? (fun v => scriptVoterLookup r.stateVoterId v) = none := by
      apply List.find?_eq_none.mpr
      intro v hv
      simp only [scriptVoterLookup, beq_iff_eq]
      exact fun hb => (h3 v hv r (by simp)) (by simpa using hb)
    have hstep : runScriptImport st (r :: rest)
        = runScriptImport
            { st with store := st.store ++ [(⟨r, st.nextId⟩ : VoterRow)],
                      nextId := st.nextId + 1, imported := st.imported + 1 } rest := by
      show (r :: rest).foldl scriptRow st = _
      rw [List.foldl_cons]
      congr 1
      simp only [scriptRow, if_neg hrne, scriptUpsert, hfind]
    rw [hstep]
    have hnd' : (rest.map VoterData.stateVoterId).Nodup := by
      simpa using h2.of_cons
    have hhead : r.stateVoterId ∉ rest.map VoterData.stateVoterId := by
      have := h2
      simp only [List.map_cons, List.nodup_cons] at this
      exact this.1
    have hx1 : ∀ x ∈ rest, x.stateVoterId ≠ "" := fun x hx => h1 x (by simp [hx])
    have hx3 : ∀ v ∈ st.store ++ [(⟨r, st.nextId⟩ : VoterRow)],
        ∀ rr ∈ rest, v.stateVoterId ≠ rr.stateVoterId := by
      intro v hv rr hrr
      rcases List.mem_append.mp hv with hv1 | hv2
      · exact h3 v hv1 rr (by simp [hrr])
      · have hveq : v = (⟨r, st.nextId⟩ : VoterRow) := by simpa using hv2
        subst hveq
        show r.stateVoterId ≠ rr.stateVoterId
        intro hc
        exact hhead (hc ▸ List.mem_map_of_mem VoterData.stateVoterId hrr)
    have hx4 : ∀ v ∈ st.store ++ [(⟨r, st.nextId⟩ : VoterRow)],
        v.id < st.nextId + 1 := by
      intro v hv
      rcases List.mem_append.mp hv with hv1 | hv2
      · have := h4 v hv1
        omega
      · have hveq : v = (⟨r, st.nextId⟩ : VoterRow) := by simpa using hv2
        subst hveq
        simp
    have hx5 : ((st.store ++ [(⟨r, st.nextId⟩ : VoterRow)]).map
        (fun v => v.id)).Nodup := by
      simp only [List.map_append]
      rw [List.nodup_append]
      refine ⟨h5, by simp, ?_⟩
      intro a ha
      obtain ⟨v, hv, rfl⟩ := List.mem_map.mp ha
      intro hb
      have hlt := h4 v hv
      have : v.id = st.nextId := by simpa using hb
      omega
    obtain ⟨i1, i2, i3, i4, i5, i6⟩ := ih
      { st with store := st.store ++ [(⟨r, st.nextId⟩ : VoterRow)],
                nextId := st.nextId + 1, imported := st.imported + 1 }
      hx1 hnd' hx3 hx4 hx5
    refine ⟨?_, i2, ?_, ?_, i5, i6⟩
    · rw [i1]
      dsimp only
      simp
      omega
    · rw [i3]
      dsimp only
      simp
    · rw [i4]
      dsimp only
      simp
      omega

/-- A run over rows whose external identifiers are all already present
updates in place: each row is `updated`, none `imported`, and the store's
size, id column and external-identifier column are untouched. -/
theorem scriptRun_existing : ∀ (rows : List VoterData) (st : ScriptState),
    (∀ r ∈ rows, r.stateVoterId ∈ st.store.map (fun v => v.stateVoterId)) →
    (∀ r ∈ rows, r.stateVoterId ≠ "") →
    (st.store.map (fun v => v.id)).Nodup →
    (runScriptImport st rows).updated = st.updated + rows.length
    ∧ (runScriptImport st rows).imported = st.imported
    ∧ (runScriptImport st rows).store.map (fun v => v.stateVoterId)
        = st.store.map (fun v => v.stateVoterId)
    ∧ (runScriptImport st rows).store.map (fun v => v.id)
        = st.store.map (fun v => v.id)
    ∧ (runScriptImport st rows).store.length = st.store.length := by
  intro rows
  induction rows with
  | nil =>
    intro st hmem hne hnd
    exact ⟨rfl, rfl, rfl, rfl, rfl⟩
  | cons r rest ih =>
    intro st hmem hne hnd
    have hrne : r.stateVoterId ≠ "" := hne r (by simp)
    have hrmem : r.stateVoterId ∈ st.store.map (fun v => v.stateVoterId) :=
      hmem r (by simp)
    obtain ⟨e0, he0mem, he0sid⟩ := List.mem_map.mp hrmem
    have hsome : (st.store.find? (fun v => scriptVoterLookup r.stateVoterId v)).isSome := by
      rcases hfd : st.store.find? (fun v => scriptVoterLookup r.stateVoterId v) with _ | e
      · exfalso
        have := List.find?_eq_none.mp hfd e0 he0mem
        simp [scriptVoterLookup, he0sid] at this
      · rfl
    obtain ⟨e, hfind⟩ := Option.isSome_iff_exists.mp hsome
    have hemem : e ∈ st.store := List.mem_of_find?_eq_some hfind
    have hesid : e.stateVoterId = r.stateVoterId := by
      have := List.find?_some hfind
      simpa [scriptVoterLookup] using this
    have hstep : runScriptImport st (r :: rest)
        = runScriptImport
            { st with
              store := st.store.map
                (fun x => if x.id == e.id then (⟨r, e.id⟩ : VoterRow) else x),
              updated := st.updated + 1 } rest := by
      show (r :: rest).foldl scriptRow st = _
      rw [List.foldl_cons]
      congr 1
      simp only [scriptRow, if_neg hrne, scriptUpsert, hfind]
    rw [hstep]
    have hptwise : ∀ x ∈ st.store,
        (if x.id == e.id then (⟨r, e.id⟩ : VoterRow) else x).stateVoterId = x.stateVoterId
        ∧ (if x.id == e.id then (⟨r, e.id⟩ : VoterRow) else x).id = x.id := by
      intro x hx
      rcases hxe : x.id == e.id with _ | _
      · simp [hxe]
      · have hxeq : x = e := List.inj_on_of_nodup_map hnd hx hemem (by simpa using hxe)
        subst hxeq
        simp_all
    have hsidmap : (st.store.map
          (fun x => if x.id == e.id then (⟨r, e.id⟩ : VoterRow) else x)).map
            (fun v => v.stateVoterId)
        = st.store.map (fun v => v.stateVoterId) := by
      rw [List.map_map]
      exact List.map_congr_left (fun x hx => (hptwise x hx).1)
    have hidmap : (st.store.map
          (fun x => if x.id == e.id then (⟨r, e.id⟩ : VoterRow) else x)).map
            (fun v => v.id)
        = st.store.map (fun v => v.id) := by
      rw [List.map_map]
      exact List.map_congr_left (fun x hx => (hptwise x hx).2)
    obtain ⟨i1, i2, i3, i4, i5⟩ := ih
      { st with
        store := st.store.map
          (fun x => if x.id == e.id then (⟨r, e.id⟩ : VoterRow) else x),
        updated := st.updated + 1 }
      (by
        intro rr hrr
        show rr.stateVoterId ∈ (st.store.map
          (fun x => if x.id == e.id then (⟨r, e.id⟩ : VoterRow) else x)).map
            (fun v => v.stateVoterId)
        rw [hsidmap]
        exact hmem rr (by simp [hrr]))
      (fun rr hrr => hne rr (by simp [hrr]))
      (by
        show ((st.store.map
          (fun x => if x.id == e.id then (⟨r, e.id⟩ : VoterRow) else x)).map
            (fun v => v.id)).Nodup
        rw [hidmap]
        exact hnd)
    refine ⟨?_, i2, ?_, ?_, ?_⟩
    · rw [i1]
      dsimp only
      simp
      omega
    · rw [i3]
      dsimp only
      exact hsidmap
    · rw [i4]
      dsimp only
      exact hidmap
    · rw [i5]
      dsimp only
      simp

/-! ## Supporting lemmas: the column mapper and row objects -/


theorem objSet_mem {α : Type} (obj : List (String × α)) (k : String) (v : α)
    (p : String × α) (hp : p ∈ objSet obj k v) : p ∈ obj ∨ p = (k, v) := by
  unfold objSet at hp
  split at hp
  · obtain ⟨q, hq, hpq⟩ := List.mem_map.mp hp
    by_cases hk : (q.1 == k) = true
    · right
      rw [← hpq]
      simp [hk]
    · left
      rw [← hpq]
      simp only [hk, if_neg]
      · exact hq
  · rcases List.mem_append.mp hp with h | h
    · left; exact h
    · right; simpa using h

theorem objGet_mem {α : Type} (obj : List (String × α)) (k : String) (v : α)
    (h : objGet obj k = some v) : (k, v) ∈ obj := by
  unfold objGet at h
  cases hf : obj.find? (fun p => p.1 == k) with
  | none => rw [hf] at h; simp at h
  | some q =>
    rw [hf] at h
    simp at h
    have hqmem := List.mem_of_find?_eq_some hf
    have hq1 := List.find?_some hf
    simp only [beq_iff_eq] at hq1
    have : q = (k, v) := by
      cases q
      simp_all
    rw [← this]
    exact hqmem

theorem getD_mem_or {α : Type} : ∀ (l : List α) (i : Nat) (d : α),
    l.getD i d = d ∨ l.getD i d ∈ l := by
  intro l
  induction l with
  | nil => intro i d; left; simp
  | cons a t ih =>
    intro i d
    cases i with
    | zero => right; simp
    | succ j =>
      rcases ih j d with h | h
      · left; simpa using h
      · right; simp only [List.getD_cons_succ]; exact List.mem_cons_of_mem a h

theorem buildRow_fold_values (values : List String) :
    ∀ (hs : List (Nat × String)) (acc : Row),
    (∀ q ∈ acc, q.2 = "" ∨ q.2 ∈ values) →
    ∀ q ∈ hs.foldl (fun acc p => objSet acc p.2 (values.getD p.1 "")) acc,
      q.2 = "" ∨ q.2 ∈ values := by
  intro hs
  induction hs with
  | nil => exact fun acc h => h
  | cons p rest ih =>
    intro acc hacc
    simp only [List.foldl_cons]
    apply ih
    intro q hq
    rcases objSet_mem _ _ _ _ hq with h | h
    · exact hacc q h
    · subst h
      show values.getD p.1 "" = "" ∨ values.getD p.1 "" ∈ values
      exact getD_mem_or values p.1 ""

theorem buildRow_values (headers values : List String) (k v : String)
    (h : (k, v) ∈ buildRow headers values) : v = "" ∨ v ∈ values :=
  buildRow_fold_values values headers.enum [] (by simp) (k, v) h

theorem head?_dropWhile_false (p : Char → Bool) : ∀ (l : List Char) (c : Char),
    (l.dropWhile p).head? = some c → p c = false := by
  intro l
  induction l with
  | nil => intro c h; simp at h
  | cons a t ih =>
    intro c h
    rw [List.dropWhile_cons] at h
    by_cases hp : p a
    · rw [if_pos hp] at h
      exact ih c h
    · rw [if_neg hp] at h
      simp only [List.head?_cons, Option.some.injEq] at h
      subst h
      exact Bool.eq_false_iff.mpr hp

theorem jsTrim_head (s : String) (c : Char)
    (h : (jsTrim s).toList.head? = some c) : c.isWhitespace = false := by
  unfold jsTrim at h
  have hpref : ((s.toList.dropWhile Char.isWhitespace).reverse.dropWhile
      Char.isWhitespace).reverse <+: s.toList.dropWhile Char.isWhitespace := by
    have hsuf := List.dropWhile_suffix (l := (s.toList.dropWhile Char.isWhitespace).reverse)
      Char.isWhitespace
    have := List.reverse_prefix.mpr hsuf
    rwa [List.reverse_reverse] at this
  obtain ⟨t, ht⟩ := hpref
  cases hr : ((s.toList.dropWhile Char.isWhitespace).reverse.dropWhile
      Char.isWhitespace).reverse with
  | nil =>
    rw [hr] at h
    exact absurd (show ([] : List Char).head? = some c from h) (by simp)
  | cons c0 r =>
    rw [hr] at h
    have h' : c0 = c := by
      have hcc : (c0 :: r).head? = some c := h
      simpa using hcc
    subst h'
    rw [hr] at ht
    have hm : (s.toList.dropWhile Char.isWhitespace).head? = some c0 := by
      rw [← ht]
      rfl
    exact head?_dropWhile_false Char.isWhitespace s.toList c0 hm

theorem parseCSVLine_field_head (line : String) (x : String)
    (hx : x ∈ parseCSVLine line) : x.toList.head? ≠ some ' ' := by
  obtain ⟨u, rfl⟩ := parseCSVAux_mem_trim line.toList.length line.toList "" false
    le_rfl x hx
  intro hh
  have := jsTrim_head u ' ' hh
  simp at this



theorem jsSplitChars_head (sep : Char) : ∀ (l : List Char),
    ∃ t, jsSplitChars sep l = l.takeWhile (fun c => !(c == sep)) :: t := by
  intro l
  induction l with
  | nil => exact ⟨[], rfl⟩
  | cons c rest ih =>
    by_cases hc : c = sep
    · refine ⟨jsSplitChars sep rest, ?_⟩
      simp [jsSplitChars, hc, List.takeWhile_cons]
    · obtain ⟨t, ht⟩ := ih
      refine ⟨t, ?_⟩
      have hb : (c == sep) = false := by simp [hc]
      simp [jsSplitChars, hc, ht, List.takeWhile_cons, hb]

theorem jsParseIntOrNull_ne_str (s x : String) : jsParseIntOrNull s ≠ .str x := by
  unfold jsParseIntOrNull
  split
  · split <;> simp
  · simp

theorem mapDateValue_ne_empty (v : String) (hv : v ≠ "")
    (hh : v.toList.head? ≠ some ' ') : mapDateValue v ≠ "" := by
  unfold mapDateValue
  split
  · split
    · rename_i m d y
      intro hc
      have := congrArg String.data hc
      simp [String.data_append] at this
    · exact hv
  · split
    · obtain ⟨t, ht⟩ := jsSplitChars_head ' ' v.toList
      show (jsSplit v ' ').headD "" ≠ ""
      unfold jsSplit
      rw [ht]
      simp only [List.map_cons, List.headD_cons]
      apply stringNeEmpty
      cases hv' : v.toList with
      | nil =>
        exfalso
        apply hv
        have hmk : v = String.mk v.toList := rfl
        rw [hmk, hv']
      | cons c0 r =>
        rw [List.takeWhile_cons]
        have hhd : v.toList.head? = some c0 := by rw [hv']; rfl
        have hc0 : (c0 == ' ') = false := by
          by_cases hsp : c0 = ' '
          · exact absurd (by rw [hhd, hsp]) hh
          · simp [hsp]
        simp [hc0]
    · exact hv

theorem convertValue_ne_empty (t v : String) (hv : v ≠ "")
    (hh : v.toList.head? ≠ some ' ') :
    convertValue t v ≠ MappedValue.str "" := by
  unfold convertValue
  split
  · exact jsParseIntOrNull_ne_str v ""
  · split
    · simp
    · split
      · simp only [ne_eq, MappedValue.str.injEq]
        exact mapDateValue_ne_empty v hv hh
      · simp only [ne_eq, MappedValue.str.injEq]
        exact hv

theorem mapRowToSchema_fold_mem (row : Row) (cmFull : List (String × String)) :
    ∀ (cm : List (String × String)) (acc : MappedRow),
    cm ⊆ cmFull →
    (∀ p ∈ acc, ∃ src v, (src, p.1) ∈ cmFull ∧ objGet row src = some v ∧ v ≠ ""
      ∧ p.2 = convertValue p.1 v) →
    ∀ p ∈ cm.foldl
        (fun mapped entry =>
          match objGet row entry.1 with
          | some v => if v = "" then mapped else objSet mapped entry.2 (convertValue entry.2 v)
          | none => mapped)
        acc,
      ∃ src v, (src, p.1) ∈ cmFull ∧ objGet row src = some v ∧ v ≠ ""
        ∧ p.2 = convertValue p.1 v := by
  intro cm
  induction cm with
  | nil => exact fun acc _ hacc => hacc
  | cons entry rest ih =>
    intro acc hsub hacc
    simp only [List.foldl_cons]
    cases hg : objGet row entry.1 with
    | none =>
      simp only [hg]
      exact ih acc (fun x hx => hsub (List.mem_cons_of_mem entry hx)) hacc
    | some v =>
      simp only [hg]
      by_cases hv : v = ""
      · rw [if_pos hv]
        exact ih acc (fun x hx => hsub (List.mem_cons_of_mem entry hx)) hacc
      · rw [if_neg hv]
        apply ih _ (fun x hx => hsub (List.mem_cons_of_mem entry hx))
        intro p hp
        rcases objSet_mem _ _ _ _ hp with h | h
        · exact hacc p h
        · subst h
          exact ⟨entry.1, v, by simpa using hsub (List.mem_cons_self entry rest), hg, hv, rfl⟩

theorem mapRowToSchema_some (row : Row) (cm : List (String × String)) (ty : String)
    (m : MappedRow) (h : mapRowToSchema row cm ty = some m) :
    ∀ p ∈ m, ∃ src v, (src, p.1) ∈ cm ∧ objGet row src = some v ∧ v ≠ ""
      ∧ p.2 = convertValue p.1 v := by
  simp only [mapRowToSchema] at h
  split at h
  · exact absurd h (by simp)
  · simp only [Option.some.injEq] at h
    subst h
    exact mapRowToSchema_fold_mem row cm cm [] (fun x hx => hx) (by simp)

end VoterFile

/-- **C8** (Quoting round-trip): the CSV line parser applied to the raw line
`"Smith, ""Bob""",555-1234` returns exactly the two fields
`Smith, "Bob"` and `555-1234`: the doubled quotes un-escape to a single
quote and the comma inside the quotes does not split the field. -/
theorem c8_quoting_round_trip :
    VoterFile.parseCSVLine "\"Smith, \"\"Bob\"\"\",555-1234" =
      ["Smith, \"Bob\"", "555-1234"] := by
  decide

/-- **C9** (CSV parser totality): `parseCSVLine` is a total function that
returns at least one field on every input line; and after an unmatched
opening quote, every later character — delimiters included — is absorbed
into the current field, which is flushed (trimmed) at end of line, so a
malformed line yields a row rather than an exception. -/
theorem c9_parser_totality :
    (∀ s : String, 1 ≤ (VoterFile.parseCSVLine s).length)
    ∧ (∀ l : List Char, (∀ c ∈ l, c ≠ '"') →
        VoterFile.parseCSVLine (String.mk ('"' :: l)) =
          [VoterFile.jsTrim (String.mk l)]) := by
  constructor
  · intro s
    exact VoterFile.parseCSVAux_pos s.toList.length s.toList "" false le_rfl
  · intro l hq
    show VoterFile.parseCSVAux ('"' :: l) "" false = _
    rw [VoterFile.parseCSVAux_open_quote]
    rw [VoterFile.parseCSVAux_no_quote_true l "" hq]
    rfl

theorem c9_parser_totality_witness :
    1 ≤ (VoterFile.parseCSVLine "a,b").length
    ∧ VoterFile.parseCSVLine (String.mk ('"' :: ['a', ',', 'b'])) =
        [VoterFile.jsTrim (String.mk ['a', ',', 'b'])] :=
  ⟨c9_parser_totality.1 "a,b", c9_parser_totality.2 ['a', ',', 'b'] (by decide)⟩

/-- **C4** (corrected — counter invariant): for every completed import run,
`successRows + errorRows ≤ processedRows` and `processedRows = totalRows`
(the final job update writes `totalRows: processedRows`).  The claimed
equality `successRows + errorRows = processedRows` fails: a row whose
mapping produces no values is counted in `processedRows` but in neither
`successRows` nor `errorRows` (see the counterexample). -/
theorem c4_counter_invariant (mapper : VoterFile.Row → Except String (Option VoterFile.MappedRow))
    (lines : List String) :
    (VoterFile.runImport mapper lines).successRows + (VoterFile.runImport mapper lines).errorRows
      ≤ (VoterFile.runImport mapper lines).processedRows
    ∧ (VoterFile.runImport mapper lines).processedRows
      = (VoterFile.runImport mapper lines).totalRows := by
  have h := VoterFile.foldl_processLine_le mapper lines {} (by simp)
  constructor
  · unfold VoterFile.runImport
    dsimp only
    split
    · dsimp only
      omega
    · omega
  · rfl

/-- **C4 counterexample**: a completed one-row run (header `A,B`, data row
`,x`, mapping `A ↦ firstName`) whose only row maps to no values: the job
completes with `processedRows = 1` but `successRows = errorRows = 0`, so
the claimed `successRows + errorRows == processedRows` is false. -/
theorem c4_counter_invariant_counterexample :
    (VoterFile.runImport (VoterFile.routeMapper [("A", "firstName")] "voters")
        ["A,B", ",x"]).status = "completed"
    ∧ (VoterFile.runImport (VoterFile.routeMapper [("A", "firstName")] "voters")
        ["A,B", ",x"]).processedRows = 1
    ∧ ¬ ((VoterFile.runImport (VoterFile.routeMapper [("A", "firstName")] "voters")
          ["A,B", ",x"]).successRows
        + (VoterFile.runImport (VoterFile.routeMapper [("A", "firstName")] "voters")
            ["A,B", ",x"]).errorRows
        = (VoterFile.runImport (VoterFile.routeMapper [("A", "firstName")] "voters")
            ["A,B", ",x"]).processedRows) := by
  decide

/-- **C6** (Capped error list): over every import run, the persisted error
list has length `min errorRows 100`; in particular, when the rows produce
more than 100 row-level errors, the stored list has length exactly 100
while `errorRows` keeps the full count. -/
theorem c6_capped_error_list (mapper : VoterFile.Row → Except String (Option VoterFile.MappedRow))
    (lines : List String) :
    (VoterFile.runImport mapper lines).errors.length
      = min (VoterFile.runImport mapper lines).errorRows 100
    ∧ (100 < (VoterFile.runImport mapper lines).errorRows →
        (VoterFile.runImport mapper lines).errors.length = 100) := by
  have hmin : (VoterFile.runImport mapper lines).errors.length
      = min (VoterFile.runImport mapper lines).errorRows 100 := by
    unfold VoterFile.runImport
    dsimp only
    split
    · dsimp only
      exact VoterFile.foldl_processLine_errlen mapper lines {} (by simp)
    · exact VoterFile.foldl_processLine_errlen mapper lines {} (by simp)
  refine ⟨hmin, fun hgt => ?_⟩
  omega

set_option maxRecDepth 40000 in
theorem c6_capped_error_list_witness :
    (VoterFile.runImport (VoterFile.failingMapper "bad row")
        ("A" :: List.replicate 101 "x")).errors.length = 100 :=
  (c6_capped_error_list (VoterFile.failingMapper "bad row")
      ("A" :: List.replicate 101 "x")).2 (by decide)


/-- **C7** (corrected — date coercion): for a field mapped to a date-typed
target, `mapRowToSchema` applies `mapDateValue`: a slash-separated
three-part value `M/D/YYYY` (or `MM/DD/YYYY`) is rewritten to the ISO-shaped
`YYYY-MM-DD` with zero-padding (without validating the digits); otherwise a
value containing a space is truncated to its first space-separated token;
every other value — already-ISO input included — is passed through
UNCHANGED, and nothing is ever raised.  The claimed null/undefined result
for unparseable values does not happen in this mapper (see the
counterexample). -/
theorem c7_date_coercion :
    (∀ v : String, v ≠ "" →
      VoterFile.mapRowToSchema [("D", v)] [("D", "registrationDate")] "voters"
        = some [("registrationDate", VoterFile.MappedValue.str (VoterFile.mapDateValue v))])
    ∧ (∀ m d y : List Char, '/' ∉ m → '/' ∉ d → '/' ∉ y →
        VoterFile.mapDateValue (String.mk (m ++ '/' :: (d ++ '/' :: y)))
          = String.mk y ++ "-" ++ VoterFile.jsPadStart (String.mk m) 2 '0' ++ "-"
            ++ VoterFile.jsPadStart (String.mk d) 2 '0')
    ∧ (∀ v : String, VoterFile.jsContains v '/' = false →
        VoterFile.jsContains v ' ' = false → VoterFile.mapDateValue v = v) := by
  refine ⟨fun v hv => ?_, VoterFile.mapDateValue_slash, VoterFile.mapDateValue_id⟩
  rw [VoterFile.mapRowToSchema_single "D" "registrationDate" v hv "voters",
    VoterFile.convertValue_regDate]

theorem c7_date_coercion_witness :
    VoterFile.mapRowToSchema [("D", "1/2/2020")] [("D", "registrationDate")] "voters"
      = some [("registrationDate", VoterFile.MappedValue.str (VoterFile.mapDateValue "1/2/2020"))]
    ∧ VoterFile.mapDateValue (String.mk (['1'] ++ '/' :: (['2'] ++ '/' :: ['2', '0', '2', '0'])))
      = String.mk ['2', '0', '2', '0'] ++ "-" ++ VoterFile.jsPadStart (String.mk ['1']) 2 '0'
        ++ "-" ++ VoterFile.jsPadStart (String.mk ['2']) 2 '0'
    ∧ VoterFile.mapDateValue "2020-01-02" = "2020-01-02" :=
  ⟨c7_date_coercion.1 "1/2/2020" (by decide),
   c7_date_coercion.2.1 ['1'] ['2'] ['2', '0', '2', '0'] (by decide) (by decide) (by decide),
   c7_date_coercion.2.2 "2020-01-02" (by decide) (by decide)⟩

/-- **C7 counterexample**: the value `notadate` cannot be parsed as a date,
yet mapping it to `registrationDate` stores the raw string `notadate` —
not null/undefined as claimed. -/
theorem c7_date_coercion_counterexample :
    VoterFile.mapRowToSchema [("D", "notadate")] [("D", "registrationDate")] "voters"
      = some [("registrationDate", VoterFile.MappedValue.str "notadate")]
    ∧ VoterFile.MappedValue.str "notadate" ≠ VoterFile.MappedValue.null := by
  exact ⟨by decide, by decide⟩

/-- **C3** (code bug — election-history duplicates): `shared/schema.ts`
declares only NON-unique indexes on `election_history`, so the
`.onConflictDoNothing()` of `insertElectionBatch` has no unique constraint
to act on and a duplicate insert lands as a second row.  Concretely:
inserting the same `(voter V1, election 2020-11-03)` record in two runs
leaves TWO stored rows for that `(voter, election date)` pair, not one. -/
theorem c3_duplicate_election_rows :
    ((VoterFile.insertElectionBatch
        (VoterFile.insertElectionBatch [] 1
          [{ toVoterData := VoterFile.mkVoterData 1 "V1", id := 1 }] 1
          [{ stateVoterId := "V1", electionDate := "2020-11-03" }]).1
        (VoterFile.insertElectionBatch [] 1
          [{ toVoterData := VoterFile.mkVoterData 1 "V1", id := 1 }] 1
          [{ stateVoterId := "V1", electionDate := "2020-11-03" }]).2
        [{ toVoterData := VoterFile.mkVoterData 1 "V1", id := 1 }] 1
        [{ stateVoterId := "V1", electionDate := "2020-11-03" }]).1.filter
      (fun row => row.voterId == 1 && row.electionDate == "2020-11-03")).length = 2 := by
  decide

/-- **C1** (corrected — tenant isolation): the request-serving components
do build tenant-scoped predicates: the voter-search conditions, the
populate-route filter conditions, the upload route's election-history
parent lookup, and the upload route's upsert conflict key all contain the
requesting organization id as a mandatory conjunct, so none of them can
hold of a voter row of another tenant.  (The standalone import script is
the exception — see the counterexample.) -/
theorem c1_route_tenant_scoping :
    (∀ (orgId : Nat) (f : VoterFile.VoterSearchFilters) (v : VoterFile.VoterRow),
      VoterFile.searchMatches orgId f v = true → v.organizationId = orgId)
    ∧ (∀ (orgId : Nat) (cr : VoterFile.ListFilterCriteria) (v : VoterFile.VoterRow),
      VoterFile.voterMatches orgId cr v = true → v.organizationId = orgId)
    ∧ (∀ (orgId : Nat) (sid : String) (v : VoterFile.VoterRow),
      VoterFile.electionParentMatches orgId sid v = true → v.organizationId = orgId)
    ∧ (∀ (orgId : Nat) (sid : String) (v : VoterFile.VoterRow),
      VoterFile.voterUpsertConflictKey orgId sid v = true → v.organizationId = orgId) := by
  refine ⟨fun orgId f v h => ?_, fun orgId cr v h => ?_,
    fun orgId sid v h => ?_, fun orgId sid v h => ?_⟩
  · simp only [VoterFile.searchMatches, Bool.and_eq_true, beq_iff_eq] at h
    exact h.1.1.1.1.1.1.1.1.1.1.1
  · simp only [VoterFile.voterMatches, Bool.and_eq_true, beq_iff_eq] at h
    exact h.1.1.1.1.1.1.1.1.1
  · simp only [VoterFile.electionParentMatches, Bool.and_eq_true, beq_iff_eq] at h
    exact h.1
  · simp only [VoterFile.voterUpsertConflictKey, Bool.and_eq_true, beq_iff_eq] at h
    exact h.1

theorem c1_route_tenant_scoping_witness :
    ({ toVoterData := VoterFile.mkVoterData 1 "W1", id := 3 } : VoterFile.VoterRow).organizationId = 1
    ∧ ({ toVoterData := VoterFile.mkVoterData 2 "W2", id := 4 } : VoterFile.VoterRow).organizationId = 2
    ∧ ({ toVoterData := VoterFile.mkVoterData 3 "W3", id := 5 } : VoterFile.VoterRow).organizationId = 3
    ∧ ({ toVoterData := VoterFile.mkVoterData 4 "W4", id := 6 } : VoterFile.VoterRow).organizationId = 4 :=
  ⟨c1_route_tenant_scoping.1 1 {}
      { toVoterData := VoterFile.mkVoterData 1 "W1", id := 3 } (by decide),
   c1_route_tenant_scoping.2.1 2 {}
      { toVoterData := VoterFile.mkVoterData 2 "W2", id := 4 } (by decide),
   c1_route_tenant_scoping.2.2.1 3 "W3"
      { toVoterData := VoterFile.mkVoterData 3 "W3", id := 5 } (by decide),
   c1_route_tenant_scoping.2.2.2 4 "W4"
      { toVoterData := VoterFile.mkVoterData 4 "W4", id := 6 } (by decide)⟩

/-- **C1 counterexample**: the standalone import script's voter lookup
(`eq(voters.stateVoterId, ...)`, no tenant conjunct) matches a row of a
DIFFERENT tenant carrying the same external identifier; running the
script's upsert for tenant 1 against a store holding tenant 2's voter
`V1` updates that row (`updated = 1`) and even rewrites its
`organizationId` to 1 — so the claim that every component's predicate is
tenant-scoped is false. -/
theorem c1_script_cross_tenant_counterexample :
    VoterFile.scriptVoterLookup "V1"
      { toVoterData := VoterFile.mkVoterData 2 "V1", id := 7 } = true
    ∧ ({ toVoterData := VoterFile.mkVoterData 2 "V1", id := 7 } : VoterFile.VoterRow).organizationId ≠ 1
    ∧ (VoterFile.runScriptImport
        { store := [{ toVoterData := VoterFile.mkVoterData 2 "V1", id := 7 }], nextId := 8 }
        [VoterFile.mkVoterData 1 "V1"]).updated = 1
    ∧ (VoterFile.runScriptImport
        { store := [{ toVoterData := VoterFile.mkVoterData 2 "V1", id := 7 }], nextId := 8 }
        [VoterFile.mkVoterData 1 "V1"]).store.map (fun v => v.organizationId) = [1] := by
  refine ⟨by decide, by decide, by decide, by decide⟩


/-- **C5** (Dynamic list replacement): populating a list with criteria A
and then with criteria B leaves the list's membership exactly equal to the
tenant's voter set matching B — no residue of the A evaluation or of
earlier manual adds survives unless it matches B, and no voter outside the
B match set is a member; the returned count is the B match-set size, and B
is persisted as the list's stored criteria.  (The populate clears all
membership rows first and re-inserts the full match set in slices of
1000.) -/
theorem c5_dynamic_list_replacement
    (st st1 st2 : VoterFile.Store) (orgId u1 u2 listId n1 n2 : Nat)
    (crA crB : VoterFile.ListFilterCriteria)
    (h1 : VoterFile.populateList st orgId u1 listId (some crA) = .ok (st1, n1))
    (h2 : VoterFile.populateList st1 orgId u2 listId (some crB) = .ok (st2, n2)) :
    VoterFile.listMembership st2 listId
      = (st.voters.filter (fun v => VoterFile.voterMatches orgId crB v)).map (fun v => v.id)
    ∧ n2 = (st.voters.filter (fun v => VoterFile.voterMatches orgId crB v)).length
    ∧ ∃ l ∈ st2.lists, l.id = listId ∧ l.filterCriteria = some crB := by
  obtain ⟨hv1, _, _, _, _⟩ := VoterFile.populateList_ok st orgId u1 listId crA st1 n1 h1
  obtain ⟨hv2, hm2, hn2, hl2, l0, hl0, hl0id, hl0org⟩ :=
    VoterFile.populateList_ok st1 orgId u2 listId crB st2 n2 h2
  rw [hv1] at hm2 hn2
  refine ⟨?_, hn2, ?_⟩
  · unfold VoterFile.listMembership
    rw [hm2, List.filter_append]
    have hfa : (st1.members.filter (fun m => !(m.listId == listId))).filter
        (fun m => m.listId == listId) = [] := by
      simp [List.filter_filter]
    have hfb : (((st.voters.filter (fun v => VoterFile.voterMatches orgId crB v)).map
          (fun v => v.id)).map (fun vid => VoterFile.ListMember.mk listId vid u2)).filter
        (fun m => m.listId == listId)
        = ((st.voters.filter (fun v => VoterFile.voterMatches orgId crB v)).map
          (fun v => v.id)).map (fun vid => VoterFile.ListMember.mk listId vid u2) := by
      apply List.filter_eq_self.mpr
      intro a ha
      obtain ⟨vid, _, rfl⟩ := List.mem_map.mp ha
      simp
    rw [hfa, hfb, List.nil_append, List.map_map]
    simp
  · rw [hl2]
    refine ⟨{ l0 with filterCriteria := some crB }, ?_, hl0id, rfl⟩
    have : (fun l => if l.id == listId then { l with filterCriteria := some crB } else l) l0
        = { l0 with filterCriteria := some crB } := by
      simp [hl0id]
    rw [← this]
    exact List.mem_map_of_mem _ hl0

theorem c5_dynamic_list_replacement_witness :
    VoterFile.listMembership VoterFile.populateDemoStore2 5
      = (VoterFile.populateDemoStore.voters.filter
          (fun v => VoterFile.voterMatches 1 (VoterFile.cityCriteria ["B"]) v)).map (fun v => v.id)
    ∧ (1 : Nat) = (VoterFile.populateDemoStore.voters.filter
          (fun v => VoterFile.voterMatches 1 (VoterFile.cityCriteria ["B"]) v)).length
    ∧ ∃ l ∈ VoterFile.populateDemoStore2.lists,
        l.id = 5 ∧ l.filterCriteria = some (VoterFile.cityCriteria ["B"]) :=
  c5_dynamic_list_replacement VoterFile.populateDemoStore VoterFile.populateDemoStore1
    VoterFile.populateDemoStore2 1 9 9 5 1 1 (VoterFile.cityCriteria ["A"])
    (VoterFile.cityCriteria ["B"]) rfl rfl


/-- **C2** (corrected — idempotent re-import): for a file of N voter rows
each carrying a DISTINCT non-empty external identifier none of which is
already present in the store (any tenant — the script's lookup is keyed by
the external identifier alone), the first run yields
`imported = N, updated = 0`, the second run of the same file yields
`imported = 0, updated = N`, and the second run leaves the stored row
count unchanged (the upsert updates the existing row instead of inserting
a duplicate).  The hypotheses on serial ids (unique, below `nextId`) are
the database's primary-key guarantees. -/
theorem c2_idempotent_reimport
    (store : List VoterFile.VoterRow) (nextId : Nat) (rows : List VoterFile.VoterData)
    (hne : ∀ r ∈ rows, r.stateVoterId ≠ "")
    (hnd : (rows.map VoterFile.VoterData.stateVoterId).Nodup)
    (hdisj : ∀ v ∈ store, ∀ r ∈ rows, v.stateVoterId ≠ r.stateVoterId)
    (hidb : ∀ v ∈ store, v.id < nextId)
    (hidn : (store.map (fun v => v.id)).Nodup) :
    (VoterFile.scriptFirstRun store nextId rows).imported = rows.length
    ∧ (VoterFile.scriptFirstRun store nextId rows).updated = 0
    ∧ (VoterFile.scriptFirstRun store nextId rows).store.length = store.length + rows.length
    ∧ (VoterFile.scriptSecondRun store nextId rows).imported = 0
    ∧ (VoterFile.scriptSecondRun store nextId rows).updated = rows.length
    ∧ (VoterFile.scriptSecondRun store nextId rows).store.length
        = (VoterFile.scriptFirstRun store nextId rows).store.length := by
  obtain ⟨f1, f2, f3, f4, f5, f6⟩ := VoterFile.scriptRun_fresh rows
    { store := store, nextId := nextId } hne hnd hdisj hidb hidn
  unfold VoterFile.scriptSecondRun VoterFile.scriptFirstRun
  obtain ⟨s1, s2, s3, s4, s5⟩ := VoterFile.scriptRun_existing rows
    { store := (VoterFile.scriptFirstRun store nextId rows).store,
      nextId := (VoterFile.scriptFirstRun store nextId rows).nextId }
    (by
      intro r hr
      show r.stateVoterId ∈ (VoterFile.scriptFirstRun store nextId rows).store.map
        (fun v => v.stateVoterId)
      unfold VoterFile.scriptFirstRun
      rw [f3]
      exact List.mem_append_right _
        (List.mem_map_of_mem VoterFile.VoterData.stateVoterId hr))
    hne
    (by
      show ((VoterFile.scriptFirstRun store nextId rows).store.map (fun v => v.id)).Nodup
      unfold VoterFile.scriptFirstRun
      exact f6)
  unfold VoterFile.scriptFirstRun at s1 s2 s3 s4 s5
  refine ⟨?_, f2, ?_, ?_, ?_, ?_⟩
  · rw [f1]
    simp
  · rw [f4]
  · rw [s2]
  · rw [s1]
    simp
  · rw [s5]

theorem c2_idempotent_reimport_witness :
    (VoterFile.scriptFirstRun [] 1
      [VoterFile.mkVoterData 1 "V1", VoterFile.mkVoterData 1 "V2"]).imported = 2
    ∧ (VoterFile.scriptFirstRun [] 1
      [VoterFile.mkVoterData 1 "V1", VoterFile.mkVoterData 1 "V2"]).updated = 0
    ∧ (VoterFile.scriptFirstRun [] 1
      [VoterFile.mkVoterData 1 "V1", VoterFile.mkVoterData 1 "V2"]).store.length = 0 + 2
    ∧ (VoterFile.scriptSecondRun [] 1
      [VoterFile.mkVoterData 1 "V1", VoterFile.mkVoterData 1 "V2"]).imported = 0
    ∧ (VoterFile.scriptSecondRun [] 1
      [VoterFile.mkVoterData 1 "V1", VoterFile.mkVoterData 1 "V2"]).updated = 2
    ∧ (VoterFile.scriptSecondRun [] 1
      [VoterFile.mkVoterData 1 "V1", VoterFile.mkVoterData 1 "V2"]).store.length
      = (VoterFile.scriptFirstRun [] 1
          [VoterFile.mkVoterData 1 "V1", VoterFile.mkVoterData 1 "V2"]).store.length :=
  c2_idempotent_reimport [] 1 [VoterFile.mkVoterData 1 "V1", VoterFile.mkVoterData 1 "V2"]
    (by decide) (by decide) (by decide) (by decide) (by decide)

/-- **C2 counterexample**: the claim as stated fails on the code in two
ways.  (a) A file whose two rows carry the same external identifier `V1`
(both non-empty) imported into an empty store yields
`imported = 1, updated = 1`, not `imported = 2, updated = 0`.  (b) With
tenant 2 holding a voter `V1`, importing a one-row file for tenant 1 — a
tenant for which no such voter exists — yields `imported = 0, updated = 1`
because the script's lookup ignores the tenant. -/
theorem c2_idempotent_reimport_counterexample :
    (VoterFile.scriptFirstRun [] 1
      [VoterFile.mkVoterData 1 "V1", VoterFile.mkVoterData 1 "V1"]).imported = 1
    ∧ (VoterFile.scriptFirstRun [] 1
      [VoterFile.mkVoterData 1 "V1", VoterFile.mkVoterData 1 "V1"]).updated = 1
    ∧ (VoterFile.scriptFirstRun
        [{ toVoterData := VoterFile.mkVoterData 2 "V1", id := 7 }] 8
        [VoterFile.mkVoterData 1 "V1"]).imported = 0
    ∧ (VoterFile.scriptFirstRun
        [{ toVoterData := VoterFile.mkVoterData 2 "V1", id := 7 }] 8
        [VoterFile.mkVoterData 1 "V1"]).updated = 1 := by
  refine ⟨by decide, by decide, by decide, by decide⟩
/-- **C10** (empty cells never mapped): (a) every field of a mapped row
comes from a source column whose cell is present and non-empty — empty or
absent cells are omitted; (b) for a row built from a parsed CSV line (the
parser trims every field), no mapped field ever carries the empty string;
(c) when no source column contributes any value, `mapRowToSchema` returns
null and the data handler does not add the row to the write batch. -/
theorem c10_empty_cells_never_mapped :
    (∀ (row : VoterFile.Row) (cm : List (String × String)) (ty : String)
       (m : VoterFile.MappedRow),
      VoterFile.mapRowToSchema row cm ty = some m →
      ∀ p ∈ m, ∃ src v, (src, p.1) ∈ cm ∧ VoterFile.objGet row src = some v ∧ v ≠ "")
    ∧ (∀ (line : String) (headers : List String) (cm : List (String × String))
         (ty : String) (m : VoterFile.MappedRow),
        VoterFile.mapRowToSchema (VoterFile.buildRow headers (VoterFile.parseCSVLine line))
          cm ty = some m →
        ∀ p ∈ m, p.2 ≠ VoterFile.MappedValue.str "")
    ∧ (∀ (cm : List (String × String)) (ty : String) (st : VoterFile.LoopState)
         (line : String),
        st.batch.length < 1000 →
        VoterFile.jsTrim line ≠ "" →
        st.headers.isEmpty = false →
        VoterFile.mapRowToSchema (VoterFile.buildRow st.headers (VoterFile.parseCSVLine line))
          cm ty = none →
        (VoterFile.processLine (VoterFile.routeMapper cm ty) st line).batch = st.batch) := by
  refine ⟨?_, ?_, ?_⟩
  · intro row cm ty m h p hp
    obtain ⟨src, v, hcm, hget, hv, _⟩ := VoterFile.mapRowToSchema_some row cm ty m h p hp
    exact ⟨src, v, hcm, hget, hv⟩
  · intro line headers cm ty m h p hp
    obtain ⟨src, v, hcm, hget, hv, hpv⟩ :=
      VoterFile.mapRowToSchema_some _ cm ty m h p hp
    have hmem := VoterFile.objGet_mem _ _ _ hget
    rcases VoterFile.buildRow_values headers (VoterFile.parseCSVLine line) src v hmem with
      h0 | hparse
    · exact absurd h0 hv
    · have hhead := VoterFile.parseCSVLine_field_head line v hparse
      rw [hpv]
      exact VoterFile.convertValue_ne_empty p.1 v hv hhead
  · intro cm ty st line hlen hblank hhd hmap
    simp only [VoterFile.processLine, VoterFile.routeMapper, hmap, hhd,
      if_neg hblank, Bool.false_eq_true, if_false]
    rw [if_neg (by omega : ¬ 1000 ≤ st.batch.length)]


theorem c10_empty_cells_never_mapped_witness :
    (∀ p ∈ [("firstName", VoterFile.MappedValue.str "x")],
      ∃ src v, (src, p.1) ∈ [("A", "firstName")]
        ∧ VoterFile.objGet [("A", "x")] src = some v ∧ v ≠ "")
    ∧ (∀ p ∈ [("firstName", VoterFile.MappedValue.str "x")],
        p.2 ≠ VoterFile.MappedValue.str "")
    ∧ (VoterFile.processLine (VoterFile.routeMapper [("A", "firstName")] "voters")
        { headers := ["A"] } ",").batch
      = ({ headers := ["A"] } : VoterFile.LoopState).batch :=
  ⟨c10_empty_cells_never_mapped.1 [("A", "x")] [("A", "firstName")] "voters"
      [("firstName", VoterFile.MappedValue.str "x")] (by decide),
   c10_empty_cells_never_mapped.2.1 "x" ["A"] [("A", "firstName")] "voters"
      [("firstName", VoterFile.MappedValue.str "x")] (by decide),
   c10_empty_cells_never_mapped.2.2 [("A", "firstName")] "voters"
      { headers := ["A"] } "," (by decide) (by decide) (by decide) (by decide)⟩
